import Mathlib

/-!
Shallow embedding of the streak, social and group-challenge business logic
of the wellness-tracker backend (Mongoose models `User`, `Activity`, `Group`
and the Express route handlers for activities and social features).

Conventions of the embedding:
* timestamps are integers, milliseconds since the epoch (JS `Date` values
  subtract to such a number);
* Mongo ObjectIds are `Nat`;
* a route handler is a pure function from the documents the queries would
  return to the HTTP status, the response message and the updated documents;
* JS `array.find` is `List.find?`, `array.push` appends at the end,
  `array.filter` is `List.filter`, and in-place mutation of the entry
  `find` returned is `updateFirst` (defined below), which rewrites the
  first entry matching the predicate and leaves the rest alone.
-/

/-- Milliseconds per day, the constant `1000 * 60 * 60 * 24` from
`User.updateStreak`. -/
def msPerDay : Int := 1000 * 60 * 60 * 24

/-- The `streakData` sub-document of the `User` schema. -/
structure StreakData where
  currentStreak : Nat
  longestStreak : Nat
  lastActivityDate : Option Int
  totalActivitiesCompleted : Nat
deriving Repr, DecidableEq

/-- The day-difference measure `updateStreak` actually computes:
`Math.floor((today - lastActivity) / (1000 * 60 * 60 * 24))`, the floor of
the real quotient of the millisecond difference, which is `Int.fdiv`. -/
def codeDaysDiff (lastActivity today : Int) : Int :=
  Int.fdiv (today - lastActivity) msPerDay

/-- First half of `userSchema.methods.updateStreak`
(src/backend/models/User.js): adjust `currentStreak` and `lastActivityDate`
from the day difference. -/
def streakPhase1 (today : Int) (s : StreakData) : StreakData :=
  match s.lastActivityDate with
  | none =>
      { s with currentStreak := 1, lastActivityDate := some today }
  | some lastActivity =>
      let daysDiff := codeDaysDiff lastActivity today
      if daysDiff = 1 then
        { s with currentStreak := s.currentStreak + 1,
                 lastActivityDate := some today }
      else if daysDiff > 1 then
        { s with currentStreak := 1, lastActivityDate := some today }
      else
        s

/-- Second half of `updateStreak`: raise `longestStreak` when the current
streak exceeds it. -/
def streakPhase2 (s : StreakData) : StreakData :=
  if s.currentStreak > s.longestStreak then
    { s with longestStreak := s.currentStreak }
  else s

/-- `userSchema.methods.updateStreak`: the two adjustment phases followed by
the unconditional `totalActivitiesCompleted += 1`. -/
def updateStreak (today : Int) (s : StreakData) : StreakData :=
  let s2 := streakPhase2 (streakPhase1 today s)
  { s2 with totalActivitiesCompleted := s2.totalActivitiesCompleted + 1 }

/-- Modelled from the spec: "compare `lastActivityDate` to today using
calendar-day difference".  The calendar day of a timestamp is its day index
(floor of the timestamp over a day's milliseconds) and the calendar-day
difference is the difference of the two day indices.  This definition follows
the spec's words; the code's measure is `codeDaysDiff`. -/
def calendarDayDiff (lastActivity today : Int) : Int :=
  Int.fdiv today msPerDay - Int.fdiv lastActivity msPerDay

theorem streakPhase1_none {s : StreakData} (today : Int)
    (h : s.lastActivityDate = none) :
    streakPhase1 today s =
      { s with currentStreak := 1, lastActivityDate := some today } := by
  simp [streakPhase1, h]

theorem streakPhase1_diff_one {s : StreakData} {lastActivity : Int}
    (today : Int) (h : s.lastActivityDate = some lastActivity)
    (hd : codeDaysDiff lastActivity today = 1) :
    streakPhase1 today s =
      { s with currentStreak := s.currentStreak + 1,
               lastActivityDate := some today } := by
  simp [streakPhase1, h, hd]

theorem streakPhase1_diff_big {s : StreakData} {lastActivity : Int}
    (today : Int) (h : s.lastActivityDate = some lastActivity)
    (hd : codeDaysDiff lastActivity today > 1) :
    streakPhase1 today s =
      { s with currentStreak := 1, lastActivityDate := some today } := by
  have hne : ¬ codeDaysDiff lastActivity today = 1 := by omega
  simp [streakPhase1, h, hne, hd]

theorem streakPhase1_diff_low {s : StreakData} {lastActivity : Int}
    (today : Int) (h : s.lastActivityDate = some lastActivity)
    (hd : codeDaysDiff lastActivity today < 1) :
    streakPhase1 today s = s := by
  have hne : ¬ codeDaysDiff lastActivity today = 1 := by omega
  have hng : ¬ codeDaysDiff lastActivity today > 1 := by omega
  simp [streakPhase1, h, hne, hng]

theorem streakPhase1_longest (today : Int) (s : StreakData) :
    (streakPhase1 today s).longestStreak = s.longestStreak := by
  unfold streakPhase1
  cases s.lastActivityDate
  · rfl
  · simp only []
    split
    · rfl
    · split <;> rfl

theorem streakPhase1_total (today : Int) (s : StreakData) :
    (streakPhase1 today s).totalActivitiesCompleted =
      s.totalActivitiesCompleted := by
  unfold streakPhase1
  cases s.lastActivityDate
  · rfl
  · simp only []
    split
    · rfl
    · split <;> rfl

theorem streakPhase2_current (s : StreakData) :
    (streakPhase2 s).currentStreak = s.currentStreak := by
  unfold streakPhase2
  split <;> rfl

theorem streakPhase2_longest (s : StreakData) :
    (streakPhase2 s).longestStreak = max s.longestStreak s.currentStreak := by
  unfold streakPhase2
  split
  · simp
    omega
  · simp
    omega

theorem streakPhase2_total (s : StreakData) :
    (streakPhase2 s).totalActivitiesCompleted =
      s.totalActivitiesCompleted := by
  unfold streakPhase2
  split <;> rfl

theorem updateStreak_current (today : Int) (s : StreakData) :
    (updateStreak today s).currentStreak =
      (streakPhase1 today s).currentStreak := by
  simp [updateStreak, streakPhase2_current]

theorem updateStreak_longest (today : Int) (s : StreakData) :
    (updateStreak today s).longestStreak =
      max s.longestStreak (updateStreak today s).currentStreak := by
  simp [updateStreak, streakPhase2_longest, streakPhase2_current,
    streakPhase1_longest]

theorem updateStreak_total (today : Int) (s : StreakData) :
    (updateStreak today s).totalActivitiesCompleted =
      s.totalActivitiesCompleted + 1 := by
  simp [updateStreak, streakPhase2_total, streakPhase1_total]

/-- C1 counterexample: two timestamps on consecutive calendar days
(`msPerDay - 1` is the last millisecond of day 0, `msPerDay + 1` is early on
day 1) have calendar-day difference 1, so the claim requires `currentStreak`
to increase by exactly 1; the code computes `floor(2 ms / msPerDay) = 0` and
leaves the streak at 3 instead of moving it to 4. -/
theorem streak_calendar_day_counterexample :
    calendarDayDiff (msPerDay - 1) (msPerDay + 1) = 1 ∧
    (updateStreak (msPerDay + 1)
        ⟨3, 3, some (msPerDay - 1), 5⟩).currentStreak = 3 := by
  constructor
  · decide
  · decide

/-- C1 (amended): the streak update compares `lastActivityDate` to today by
the floor of the elapsed milliseconds over one day (whole 24-hour periods
elapsed, `codeDaysDiff`), not by calendar-day difference; with that measure a
0 difference leaves `currentStreak` unchanged, a difference of exactly 1
increments it by 1, a difference greater than 1 or an absent
`lastActivityDate` resets it to 1; afterwards
`longestStreak = max(longestStreak, currentStreak)` and
`totalActivitiesCompleted` increments by 1 on every call. -/
theorem updateStreak_spec (today : Int) (s : StreakData) :
    (s.lastActivityDate = none → (updateStreak today s).currentStreak = 1) ∧
    (∀ lastActivity, s.lastActivityDate = some lastActivity →
      (codeDaysDiff lastActivity today = 0 →
        (updateStreak today s).currentStreak = s.currentStreak) ∧
      (codeDaysDiff lastActivity today = 1 →
        (updateStreak today s).currentStreak = s.currentStreak + 1) ∧
      (codeDaysDiff lastActivity today > 1 →
        (updateStreak today s).currentStreak = 1)) ∧
    (updateStreak today s).longestStreak =
      max s.longestStreak (updateStreak today s).currentStreak ∧
    (updateStreak today s).totalActivitiesCompleted =
      s.totalActivitiesCompleted + 1 := by
  refine ⟨?_, ?_, updateStreak_longest today s, updateStreak_total today s⟩
  · intro h
    rw [updateStreak_current, streakPhase1_none today h]
  · intro lastActivity h
    refine ⟨?_, ?_, ?_⟩ <;> intro hd <;> rw [updateStreak_current]
    · rw [streakPhase1_diff_low today h (by omega)]
    · rw [streakPhase1_diff_one today h hd]
    · rw [streakPhase1_diff_big today h hd]

/-- Witness for `updateStreak_spec` at a concrete input: last activity at
timestamp 0, today at exactly one day later (difference 1), from streak 2. -/
theorem updateStreak_spec_witness :
    (updateStreak msPerDay ⟨2, 2, some 0, 7⟩).currentStreak = 2 + 1 :=
  ((updateStreak_spec msPerDay ⟨2, 2, some 0, 7⟩).2.1 0 rfl).2.1 (by decide)

theorem updateStreak_longest_mono (today : Int) (s : StreakData) :
    s.longestStreak ≤ (updateStreak today s).longestStreak := by
  have h := updateStreak_longest today s
  omega

/-- C2: across any sequence of completion events (a list of completion
timestamps folded through `updateStreak`), `longestStreak` never decreases:
after appending one more event it is at least its previous value. -/
theorem longestStreak_monotone (events : List Int) (today : Int)
    (s : StreakData) :
    (events.foldl (fun st t => updateStreak t st) s).longestStreak ≤
      ((events ++ [today]).foldl (fun st t => updateStreak t st)
        s).longestStreak := by
  rw [List.foldl_append]
  exact updateStreak_longest_mono today _

/-- An entry of `socialData.likes` in the `Activity` schema. -/
structure LikeEntry where
  userId : Nat
  likedAt : Int
deriving Repr, DecidableEq

/-- An entry of `socialData.comments` in the `Activity` schema. -/
structure CommentEntry where
  userId : Nat
  content : String
  createdAt : Int
deriving Repr, DecidableEq

/-- The `completionData` sub-document of the `Activity` schema; the nested
`mood.before` / `mood.after` fields are flattened to `moodBefore` /
`moodAfter`. -/
structure CompletionData where
  isCompleted : Bool
  completedAt : Option Int
  rating : Option Nat
  feedback : Option String
  moodBefore : Option String
  moodAfter : Option String
  notes : Option String
deriving Repr, DecidableEq

/-- The `socialData` sub-document of the `Activity` schema (the `sharedWith`
list plays no role in the verified operations and is omitted). -/
structure ActivitySocialData where
  isShared : Bool
  likes : List LikeEntry
  comments : List CommentEntry
deriving Repr, DecidableEq

/-- The `Activity` document (fields the verified operations touch). -/
structure Activity where
  userId : Nat
  completionData : CompletionData
  socialData : ActivitySocialData
  isActive : Bool
  createdAt : Int
deriving Repr, DecidableEq

/-- `activitySchema.methods.markCompleted`: overwrites every completion
field and stamps `completedAt` with `new Date()`. -/
def markCompleted (now : Int) (rating : Option Nat) (feedback : Option String)
    (moodBefore moodAfter : Option String) (notes : Option String)
    (a : Activity) : Activity :=
  { a with completionData :=
      { isCompleted := true
        completedAt := some now
        rating := rating
        feedback := feedback
        moodBefore := moodBefore
        moodAfter := moodAfter
        notes := notes } }

/-- `activitySchema.methods.addLike`: push the like only when no entry with
this `userId` exists (`likedAt` defaults to `Date.now`). -/
def addLike (userId : Nat) (now : Int) (likes : List LikeEntry) :
    List LikeEntry :=
  match likes.find? (fun l => l.userId == userId) with
  | some _ => likes
  | none => likes ++ [⟨userId, now⟩]

/-- `activitySchema.methods.removeLike`: keep exactly the entries whose
`userId` differs. -/
def removeLike (userId : Nat) (likes : List LikeEntry) : List LikeEntry :=
  likes.filter (fun l => l.userId != userId)

/-- Route handler `POST /api/activities/:id/complete`
(src/backend/routes/activities.js).  `activity` is the result of the
`findOne {_id, userId, isActive: true}` query; the result is the HTTP
status, the response message, the saved activity and the saved user streak
data. -/
def completeActivityRoute (now : Int) (activity : Option Activity)
    (userStreak : StreakData) (rating : Option Nat) (feedback : Option String)
    (moodBefore moodAfter : Option String) (notes : Option String) :
    Nat × String × Option Activity × StreakData :=
  match activity with
  | none => (404, "Activity not found", none, userStreak)
  | some a =>
    if a.completionData.isCompleted then
      (400, "Activity already completed", some a, userStreak)
    else
      (200, "Activity completed successfully",
        some (markCompleted now rating feedback moodBefore moodAfter notes a),
        updateStreak now userStreak)

/-- C3: completing an activity whose `completionData.isCompleted` is already
true responds 400 ("Activity already completed") and returns the activity —
hence its entire `completionData` — and the user's streak data unchanged. -/
theorem completeActivity_already_completed (now : Int) (a : Activity)
    (userStreak : StreakData) (rating : Option Nat)
    (feedback : Option String) (moodBefore moodAfter : Option String)
    (notes : Option String)
    (h : a.completionData.isCompleted = true) :
    completeActivityRoute now (some a) userStreak rating feedback
        moodBefore moodAfter notes =
      (400, "Activity already completed", some a, userStreak) := by
  simp [completeActivityRoute, h]

/-- Witness for `completeActivity_already_completed` on a concrete
already-completed activity. -/
theorem completeActivity_already_completed_witness :
    completeActivityRoute 9 (some
        ⟨7, ⟨true, some 3, some 5, none, none, none, none⟩, ⟨false, [], []⟩,
          true, 0⟩)
        ⟨1, 1, some 0, 1⟩ none none none none none =
      (400, "Activity already completed", some
        ⟨7, ⟨true, some 3, some 5, none, none, none, none⟩, ⟨false, [], []⟩,
          true, 0⟩,
        ⟨1, 1, some 0, 1⟩) :=
  completeActivity_already_completed 9
    ⟨7, ⟨true, some 3, some 5, none, none, none, none⟩, ⟨false, [], []⟩,
      true, 0⟩
    ⟨1, 1, some 0, 1⟩ none none none none none rfl

theorem addLike_of_mem {userId : Nat} {likes : List LikeEntry} (now : Int)
    (h : ∃ l ∈ likes, l.userId = userId) :
    addLike userId now likes = likes := by
  unfold addLike
  cases hfind : likes.find? (fun l => l.userId == userId) with
  | some _ => rfl
  | none =>
    obtain ⟨l, hl, hu⟩ := h
    have := List.find?_eq_none.mp hfind l hl
    simp [hu] at this

theorem addLike_of_not_mem {userId : Nat} {likes : List LikeEntry} (now : Int)
    (h : ∀ l ∈ likes, l.userId ≠ userId) :
    addLike userId now likes = likes ++ [⟨userId, now⟩] := by
  unfold addLike
  cases hfind : likes.find? (fun l => l.userId == userId) with
  | some l =>
    have hmem := List.mem_of_find?_eq_some hfind
    have hp := List.find?_some hfind
    simp at hp
    exact absurd hp (h l hmem)
  | none => rfl

theorem countP_userId_eq_one {userId : Nat} {likes : List LikeEntry}
    (hnodup : (likes.map LikeEntry.userId).Nodup)
    (h : ∃ l ∈ likes, l.userId = userId) :
    likes.countP (fun l => l.userId == userId) = 1 := by
  obtain ⟨l, hl, hu⟩ := h
  have hmem : userId ∈ likes.map LikeEntry.userId :=
    List.mem_map.mpr ⟨l, hl, hu⟩
  have hcount := List.count_eq_one_of_mem hnodup hmem
  rw [List.count_eq_countP, List.countP_map] at hcount
  rw [← hcount]
  rfl

theorem length_filter_add_countP (userId : Nat) (likes : List LikeEntry) :
    (likes.filter (fun l => l.userId != userId)).length +
      likes.countP (fun l => l.userId == userId) = likes.length := by
  induction likes with
  | nil => rfl
  | cons x xs ih =>
    by_cases hx : x.userId = userId <;>
      simp [List.filter_cons, List.countP_cons, hx] <;> omega

/-- C4: like entries stay unique per user and unlike removes exactly the
user's one entry.  Over any `likes` list whose `userId`s are pairwise
distinct (the invariant every schema-created list satisfies):
`addLike` preserves the no-duplicate invariant; liking an already-liked
activity returns the list unchanged (idempotent); when the user has an
entry, `removeLike` shrinks the list by exactly one entry; and an entry
survives `removeLike` exactly when it belongs to another user, so all other
users' entries are untouched. -/
theorem likes_unique_and_remove_exact (userId : Nat) (now : Int)
    (likes : List LikeEntry)
    (hnodup : (likes.map LikeEntry.userId).Nodup) :
    ((addLike userId now likes).map LikeEntry.userId).Nodup ∧
    ((∃ l ∈ likes, l.userId = userId) → addLike userId now likes = likes) ∧
    ((∃ l ∈ likes, l.userId = userId) →
      (removeLike userId likes).length + 1 = likes.length) ∧
    (∀ e, e ∈ removeLike userId likes ↔ e ∈ likes ∧ e.userId ≠ userId) := by
  refine ⟨?_, addLike_of_mem now, ?_, ?_⟩
  · by_cases h : ∃ l ∈ likes, l.userId = userId
    · rw [addLike_of_mem now h]
      exact hnodup
    · push_neg at h
      rw [addLike_of_not_mem now h]
      rw [List.map_append, List.nodup_append]
      refine ⟨hnodup, by simp, ?_⟩
      intro x hx hx'
      simp at hx'
      obtain ⟨l, hl, hu⟩ := List.mem_map.mp hx
      exact h l hl (hx' ▸ hu)
  · intro h
    unfold removeLike
    have hsplit := length_filter_add_countP userId likes
    have hone := countP_userId_eq_one hnodup h
    omega
  · intro e
    simp [removeLike, List.mem_filter]

/-- Witness for `likes_unique_and_remove_exact` on a concrete two-entry
likes list: re-liking by user 1 changes nothing and unliking removes
exactly one entry. -/
theorem likes_unique_and_remove_exact_witness :
    addLike 1 5 [⟨1, 0⟩, ⟨2, 0⟩] = [⟨1, 0⟩, ⟨2, 0⟩] ∧
    (removeLike 1 [⟨1, 0⟩, ⟨2, 0⟩]).length + 1 = 2 := by
  have h := likes_unique_and_remove_exact 1 5 [⟨1, 0⟩, ⟨2, 0⟩] (by decide)
  exact ⟨h.2.1 ⟨⟨1, 0⟩, by simp, rfl⟩, h.2.2.1 ⟨⟨1, 0⟩, by simp, rfl⟩⟩

/-- Rewrite the first entry matching `p` with `f`, leaving everything else
alone: the embedding of finding a sub-document with `array.find` and
mutating it in place before `save()`. -/
def updateFirst (p : α → Bool) (f : α → α) : List α → List α
  | [] => []
  | x :: xs => if p x then f x :: xs else x :: updateFirst p f xs

theorem updateFirst_find? {p : α → Bool} {f : α → α} :
    ∀ {l : List α} {x : α}, l.find? p = some x → p (f x) = true →
      (updateFirst p f l).find? p = some (f x) := by
  intro l
  induction l with
  | nil => intro x hx; simp at hx
  | cons y ys ih =>
    intro x hx hpf
    by_cases hp : p y
    · rw [List.find?_cons_of_pos _ hp] at hx
      cases hx
      rw [updateFirst, if_pos hp]
      exact List.find?_cons_of_pos _ hpf
    · rw [List.find?_cons_of_neg _ hp] at hx
      rw [updateFirst, if_neg hp, List.find?_cons_of_neg _ hp]
      exact ih hx hpf

theorem updateFirst_length (p : α → Bool) (f : α → α) :
    ∀ l : List α, (updateFirst p f l).length = l.length := by
  intro l
  induction l with
  | nil => rfl
  | cons y ys ih =>
    rw [updateFirst]
    split
    · rfl
    · simp [ih]

theorem updateFirst_eq_self (p : α → Bool) (f : α → α) :
    ∀ l : List α, (∀ x ∈ l, p x = true → f x = x) → updateFirst p f l = l := by
  intro l
  induction l with
  | nil => intro _; rfl
  | cons y ys ih =>
    intro h
    rw [updateFirst]
    by_cases hp : p y
    · rw [if_pos hp, h y (by simp) hp]
    · rw [if_neg hp, ih (fun x hx => h x (by simp [hx]))]

/-- The `status` of an entry of `socialData.friends` in the `User` schema. -/
inductive FriendStatus where
  | pending
  | accepted
  | blocked
deriving Repr, DecidableEq

/-- An entry of `socialData.friends` in the `User` schema. -/
structure FriendEntry where
  userId : Nat
  status : FriendStatus
  addedAt : Int
deriving Repr, DecidableEq

/-- The mutation `friend.status = 'accepted'` applied to a found entry. -/
def setAccepted (e : FriendEntry) : FriendEntry :=
  { e with status := .accepted }

/-- Route handler `POST /api/social/friends/accept` (social routes):
`currentFriends` / `targetFriends` are the two users' `socialData.friends`
arrays; the result is the HTTP status, the message and both saved arrays.
The handler looks each user up in the other's list and, when both entries
exist, flips both to `accepted` (two separate writes). -/
def acceptFriendRoute (currentUserId targetUserId : Nat)
    (currentFriends targetFriends : List FriendEntry) :
    Nat × String × List FriendEntry × List FriendEntry :=
  match currentFriends.find? (fun e => e.userId == targetUserId),
        targetFriends.find? (fun e => e.userId == currentUserId) with
  | some _, some _ =>
      (200, "Friend request accepted",
        updateFirst (fun e => e.userId == targetUserId) setAccepted
          currentFriends,
        updateFirst (fun e => e.userId == currentUserId) setAccepted
          targetFriends)
  | _, _ => (400, "Friend request not found", currentFriends, targetFriends)

/-- C5: when a friend-request entry exists on both sides, accepting succeeds
(status 200) and afterwards the accepting user's entry for the other user
and the other user's entry for the accepting user both report status
`accepted`. -/
theorem acceptFriend_symmetric (currentUserId targetUserId : Nat)
    (currentFriends targetFriends : List FriendEntry)
    (h1 : (currentFriends.find? (fun e => e.userId == targetUserId)).isSome)
    (h2 : (targetFriends.find? (fun e => e.userId == currentUserId)).isSome) :
    (acceptFriendRoute currentUserId targetUserId currentFriends
        targetFriends).1 = 200 ∧
    (((acceptFriendRoute currentUserId targetUserId currentFriends
        targetFriends).2.2.1.find? (fun e => e.userId == targetUserId)).map
          FriendEntry.status = some .accepted) ∧
    (((acceptFriendRoute currentUserId targetUserId currentFriends
        targetFriends).2.2.2.find? (fun e => e.userId == currentUserId)).map
          FriendEntry.status = some .accepted) := by
  obtain ⟨x1, hx1⟩ := Option.isSome_iff_exists.mp h1
  obtain ⟨x2, hx2⟩ := Option.isSome_iff_exists.mp h2
  have hx1p := List.find?_some hx1
  have hx2p := List.find?_some hx2
  have hp1 : ((setAccepted x1).userId == targetUserId) = true := by
    simpa [setAccepted] using hx1p
  have hp2 : ((setAccepted x2).userId == currentUserId) = true := by
    simpa [setAccepted] using hx2p
  have hroute : acceptFriendRoute currentUserId targetUserId currentFriends
      targetFriends =
      (200, "Friend request accepted",
        updateFirst (fun e => e.userId == targetUserId) setAccepted
          currentFriends,
        updateFirst (fun e => e.userId == currentUserId) setAccepted
          targetFriends) := by
    unfold acceptFriendRoute
    rw [hx1, hx2]
  rw [hroute]
  refine ⟨rfl, ?_, ?_⟩
  · rw [updateFirst_find? hx1 hp1]
    rfl
  · rw [updateFirst_find? hx2 hp2]
    rfl

/-- Witness for `acceptFriend_symmetric` on concrete single-entry pending
lists for users 0 and 1. -/
theorem acceptFriend_symmetric_witness :
    ((acceptFriendRoute 0 1 [⟨1, FriendStatus.pending, 2⟩]
        [⟨0, FriendStatus.pending, 2⟩]).2.2.1.find?
          (fun e => e.userId == 1)).map FriendEntry.status =
      some FriendStatus.accepted :=
  (acceptFriend_symmetric 0 1 [⟨1, FriendStatus.pending, 2⟩]
    [⟨0, FriendStatus.pending, 2⟩] (by decide) (by decide)).2.1

/-- Route handler `POST /api/social/friends/request` (social routes): the
self-request guard, the duplicate check on the sender's own friends list
(which only rejects `accepted` and `pending` entries), then the push of a
`pending` entry onto both users' lists. -/
def sendFriendRequestRoute (currentUserId targetUserId : Nat) (now : Int)
    (currentFriends targetFriends : List FriendEntry) :
    Nat × String × List FriendEntry × List FriendEntry :=
  if currentUserId == targetUserId then
    (400, "Cannot send friend request to yourself", currentFriends,
      targetFriends)
  else
    match currentFriends.find? (fun e => e.userId == targetUserId) with
    | some e =>
      match e.status with
      | .accepted => (400, "Already friends", currentFriends, targetFriends)
      | .pending =>
          (400, "Friend request already sent", currentFriends, targetFriends)
      | .blocked =>
          (200, "Friend request sent successfully",
            currentFriends ++ [⟨targetUserId, .pending, now⟩],
            targetFriends ++ [⟨currentUserId, .pending, now⟩])
    | none =>
        (200, "Friend request sent successfully",
          currentFriends ++ [⟨targetUserId, .pending, now⟩],
          targetFriends ++ [⟨currentUserId, .pending, now⟩])

/-- C8 counterexample: user 0 already has an entry for user 1 — with status
`blocked` — yet the request is not rejected: it succeeds with 200 and pushes
a second entry for user 1 onto user 0's list (and one onto user 1's list),
contradicting "an existing entry of any status yields a conflict error and
no new entry". -/
theorem friendRequest_blocked_counterexample :
    sendFriendRequestRoute 0 1 5 [⟨1, .blocked, 0⟩] [] =
      (200, "Friend request sent successfully",
        [⟨1, .blocked, 0⟩, ⟨1, .pending, 5⟩], [⟨0, .pending, 5⟩]) := by
  rfl

/-- C8 (amended): a new friend request is rejected with a conflict-style 400
and adds no entry to either list exactly when the sender's own friends list
already holds an entry for the target with status `pending` or `accepted`
(a `blocked` entry does not block, and the recipient's list is never
checked); when the sender's list has no entry for the target, the request
succeeds and appends a `pending` entry to both the sender's and the
recipient's list. -/
theorem sendFriendRequest_spec (currentUserId targetUserId : Nat) (now : Int)
    (currentFriends targetFriends : List FriendEntry)
    (hne : currentUserId ≠ targetUserId) :
    (∀ e, currentFriends.find? (fun x => x.userId == targetUserId) = some e →
      (e.status = .pending ∨ e.status = .accepted) →
      (sendFriendRequestRoute currentUserId targetUserId now currentFriends
          targetFriends).1 = 400 ∧
      (sendFriendRequestRoute currentUserId targetUserId now currentFriends
          targetFriends).2.2 = (currentFriends, targetFriends)) ∧
    (currentFriends.find? (fun x => x.userId == targetUserId) = none →
      sendFriendRequestRoute currentUserId targetUserId now currentFriends
          targetFriends =
        (200, "Friend request sent successfully",
          currentFriends ++ [⟨targetUserId, .pending, now⟩],
          targetFriends ++ [⟨currentUserId, .pending, now⟩])) := by
  have hbeq : (currentUserId == targetUserId) = false := by
    simpa using hne
  constructor
  · intro e hfind hstat
    have hroute : sendFriendRequestRoute currentUserId targetUserId now
        currentFriends targetFriends =
        (match e.status with
          | .accepted =>
              (400, "Already friends", currentFriends, targetFriends)
          | .pending =>
              (400, "Friend request already sent", currentFriends,
                targetFriends)
          | .blocked =>
              (200, "Friend request sent successfully",
                currentFriends ++ [⟨targetUserId, .pending, now⟩],
                targetFriends ++ [⟨currentUserId, .pending, now⟩])) := by
      unfold sendFriendRequestRoute
      rw [hbeq, hfind]
      rfl
    rcases hstat with hs | hs <;> rw [hroute, hs] <;> exact ⟨rfl, rfl⟩
  · intro hfind
    unfold sendFriendRequestRoute
    rw [hbeq, hfind]
    rfl

/-- Witness for `sendFriendRequest_spec`: a pending entry for user 1 on user
0's list makes a repeat request return 400 with both lists unchanged, and
with no entry the request appends pending entries on both sides. -/
theorem sendFriendRequest_spec_witness :
    ((sendFriendRequestRoute 0 1 5 [⟨1, FriendStatus.pending, 0⟩] []).1 = 400 ∧
      (sendFriendRequestRoute 0 1 5 [⟨1, FriendStatus.pending, 0⟩] []).2.2 =
        ([⟨1, FriendStatus.pending, 0⟩], [])) ∧
    sendFriendRequestRoute 0 1 5 [] [] =
      (200, "Friend request sent successfully",
        [⟨1, FriendStatus.pending, 5⟩], [⟨0, FriendStatus.pending, 5⟩]) :=
  ⟨(sendFriendRequest_spec 0 1 5 [⟨1, FriendStatus.pending, 0⟩] []
      (by decide)).1 ⟨1, FriendStatus.pending, 0⟩ rfl (Or.inl rfl),
    (sendFriendRequest_spec 0 1 5 [] [] (by decide)).2 rfl⟩

theorem mem_updateFirst {p : α → Bool} {f : α → α} :
    ∀ {l : List α} {x : α}, l.find? p = some x → f x ∈ updateFirst p f l := by
  intro l
  induction l with
  | nil => intro x hx; simp at hx
  | cons y ys ih =>
    intro x hx
    by_cases hp : p y
    · rw [List.find?_cons_of_pos _ hp] at hx
      cases hx
      rw [updateFirst, if_pos hp]
      exact List.mem_cons_self _ _
    · rw [List.find?_cons_of_neg _ hp] at hx
      rw [updateFirst, if_neg hp]
      exact List.mem_cons_of_mem _ (ih hx)

theorem countP_updateFirst (q : α → Bool) {p : α → Bool} (f : α → α) :
    ∀ {l : List α} {x : α}, l.find? p = some x →
      (updateFirst p f l).countP q + (if q x then 1 else 0) =
        l.countP q + (if q (f x) then 1 else 0) := by
  intro l
  induction l with
  | nil => intro x hx; simp at hx
  | cons y ys ih =>
    intro x hx
    by_cases hp : p y
    · rw [List.find?_cons_of_pos _ hp] at hx
      cases hx
      rw [updateFirst, if_pos hp, List.countP_cons, List.countP_cons]
      omega
    · rw [List.find?_cons_of_neg _ hp] at hx
      rw [updateFirst, if_neg hp, List.countP_cons, List.countP_cons]
      have := ih hx
      omega

theorem updateFirst_get? (p : α → Bool) (f : α → α) :
    ∀ (l : List α) (i : Nat),
      (updateFirst p f l).get? i = l.get? i ∨
      (updateFirst p f l).get? i = (l.get? i).map f := by
  intro l
  induction l with
  | nil => intro i; left; rfl
  | cons y ys ih =>
    intro i
    by_cases hp : p y
    · rw [updateFirst, if_pos hp]
      cases i with
      | zero => right; rfl
      | succ n => left; rfl
    · rw [updateFirst, if_neg hp]
      cases i with
      | zero => left; rfl
      | succ n =>
        rcases ih n with h | h
        · left; exact h
        · right; exact h

/-- A member's `role` in the `Group` schema. -/
inductive MemberRole where
  | admin
  | moderator
  | member
deriving Repr, DecidableEq

/-- The `privacy` field of the `Group` schema. -/
inductive GroupPrivacy where
  | Public
  | Private
  | InviteOnly
deriving Repr, DecidableEq

/-- An entry of `members` in the `Group` schema. -/
structure Member where
  userId : Nat
  role : MemberRole
  joinedAt : Int
  isActive : Bool
deriving Repr, DecidableEq

/-- The `settings` sub-document of the `Group` schema. -/
structure GroupSettings where
  allowMemberPosts : Bool
  requireApproval : Bool
  allowInvites : Bool
  maxMembers : Nat
deriving Repr, DecidableEq

/-- An entry of a challenge's `participants` list in the `Group` schema. -/
structure Participant where
  userId : Nat
  progress : Int
  lastUpdate : Int
  isCompleted : Bool
deriving Repr, DecidableEq

/-- An entry of `challenges` in the `Group` schema; `id` is the
sub-document's `_id`, `goalTarget` its `goal.target`.  Title, description,
dates and rewards play no role in the verified operations and are
omitted. -/
structure Challenge where
  id : Nat
  goalTarget : Int
  participants : List Participant
  isActive : Bool
deriving Repr, DecidableEq

/-- The `Group` document (fields the verified operations touch; posts and
stats are omitted).  The source name `Group` is taken by Mathlib, hence
`GroupDoc`. -/
structure GroupDoc where
  privacy : GroupPrivacy
  members : List Member
  challenges : List Challenge
  settings : GroupSettings
  isActive : Bool
deriving Repr, DecidableEq

/-- The `memberCount` virtual: members whose entry has `isActive = true`. -/
def activeMemberCount (g : GroupDoc) : Nat :=
  (g.members.filter (fun m => m.isActive)).length

/-- `groupSchema.methods.addMember`: push a fresh active entry when the user
has none, reactivate (and restamp `joinedAt`) when an inactive entry exists,
do nothing when an active entry exists. -/
def addMember (userId : Nat) (now : Int) (role : MemberRole) (g : GroupDoc) :
    GroupDoc :=
  match g.members.find? (fun m => m.userId == userId) with
  | none =>
      { g with members := g.members ++ [⟨userId, role, now, true⟩] }
  | some m =>
      if !m.isActive then
        let ms := updateFirst (fun x => x.userId == userId)
          (fun x => { x with isActive := true, joinedAt := now }) g.members
        { g with members := ms }
      else g

/-- The participant mutation inside
`groupSchema.methods.updateChallengeProgress`: overwrite `progress`, stamp
`lastUpdate`, and set `isCompleted` when the goal target is reached. -/
def updateParticipantProgress (goalTarget progress : Int) (now : Int)
    (p : Participant) : Participant :=
  let p1 := { p with progress := progress, lastUpdate := now }
  if progress ≥ goalTarget then { p1 with isCompleted := true } else p1

/-- `groupSchema.methods.updateChallengeProgress`: find the challenge by id,
find the user's participant entry inside it, and mutate that entry; when
either lookup fails nothing changes. -/
def updateChallengeProgress (challengeId userId : Nat) (progress : Int)
    (now : Int) (g : GroupDoc) : GroupDoc :=
  let cs := updateFirst (fun c => c.id == challengeId)
    (fun c =>
      let ps := updateFirst (fun pt => pt.userId == userId)
        (updateParticipantProgress c.goalTarget progress now) c.participants
      { c with participants := ps })
    g.challenges
  { g with challenges := cs }

/-- Route handler `POST /api/social/groups/:groupId/join` (social routes):
`group` is the `findById` result; the push of the group onto the joining
user's own `socialData.groups` list is outside the verified state.  The
result is the HTTP status, the message and the saved group. -/
def joinGroupRoute (userId : Nat) (now : Int) (group : Option GroupDoc) :
    Nat × String × Option GroupDoc :=
  match group with
  | none => (404, "Group not found", none)
  | some g =>
    if !g.isActive then (404, "Group not found", some g)
    else if g.privacy == .Private then
      (403, "Cannot join private group without invitation", some g)
    else if (g.members.find? (fun m => m.userId == userId &&
        m.isActive)).isSome then
      (400, "Already a member of this group", some g)
    else if g.settings.maxMembers ≤ activeMemberCount g then
      (400, "Group has reached maximum member limit", some g)
    else
      (200, "Successfully joined group",
        some (addMember userId now .member g))

/-- Route handler
`POST /api/social/groups/:groupId/challenges/:challengeId/progress`
(social routes): progress must be a number (else 400), the group must exist
and be active (else 404), then `updateChallengeProgress` runs
unconditionally and the route answers 200 "Progress updated successfully"
whether or not anything matched. -/
def challengeProgressRoute (group : Option GroupDoc)
    (challengeId userId : Nat) (progress : Option Int) (now : Int) :
    Nat × String × Option GroupDoc :=
  match progress with
  | none => (400, "Progress must be a number", group)
  | some p =>
    match group with
    | none => (404, "Group not found", none)
    | some g =>
      if !g.isActive then (404, "Group not found", some g)
      else
        (200, "Progress updated successfully",
          some (updateChallengeProgress challengeId userId p now g))

theorem activeMemberCount_eq_countP (g : GroupDoc) :
    activeMemberCount g = g.members.countP (fun m => m.isActive) := by
  rw [activeMemberCount, List.countP_eq_length_filter]

theorem addMember_count {userId : Nat} {g : GroupDoc} (now : Int)
    (hnotmem : ∀ m ∈ g.members, m.userId = userId → m.isActive = false) :
    activeMemberCount (addMember userId now .member g) =
      activeMemberCount g + 1 := by
  unfold addMember
  cases hfind : g.members.find? (fun m => m.userId == userId) with
  | none =>
    simp [activeMemberCount, List.filter_append]
  | some m =>
    have hmu : m.userId = userId := by simpa using List.find?_some hfind
    have hminact : m.isActive = false :=
      hnotmem m (List.mem_of_find?_eq_some hfind) hmu
    have hcond : (!m.isActive) = true := by simp [hminact]
    dsimp only []
    rw [if_pos hcond]
    have hc := countP_updateFirst (fun x : Member => x.isActive)
      (fun x => { x with isActive := true, joinedAt := now }) hfind
    simp only [hminact] at hc
    simp at hc
    rw [activeMemberCount_eq_countP, activeMemberCount_eq_countP]
    dsimp only []
    omega

theorem addMember_active_entry {userId : Nat} {g : GroupDoc} (now : Int)
    (hnotmem : ∀ m ∈ g.members, m.userId = userId → m.isActive = false) :
    ∃ x ∈ (addMember userId now .member g).members,
      x.userId = userId ∧ x.isActive = true := by
  unfold addMember
  cases hfind : g.members.find? (fun m => m.userId == userId) with
  | none =>
    exact ⟨⟨userId, .member, now, true⟩, by simp, rfl, rfl⟩
  | some m =>
    have hmu : m.userId = userId := by simpa using List.find?_some hfind
    have hminact : m.isActive = false :=
      hnotmem m (List.mem_of_find?_eq_some hfind) hmu
    have hcond : (!m.isActive) = true := by simp [hminact]
    dsimp only []
    rw [if_pos hcond]
    exact ⟨{ m with isActive := true, joinedAt := now },
      mem_updateFirst hfind, hmu, rfl⟩

/-- C6: for an active group and a user with no active membership entry, a
join when the active-member count already equals `settings.maxMembers` is
rejected with 400 and the group is returned unchanged; a join when the
count is `maxMembers - 1` succeeds, adds (or reactivates) the user as an
active member, and brings the group exactly to capacity; and a join into a
`private` group is rejected with 403 and leaves the group unchanged. -/
theorem joinGroup_capacity (userId : Nat) (now : Int) (g : GroupDoc)
    (hactive : g.isActive = true)
    (hnotmem : ∀ m ∈ g.members, m.userId = userId → m.isActive = false) :
    (g.privacy ≠ .Private →
      (activeMemberCount g = g.settings.maxMembers →
        joinGroupRoute userId now (some g) =
          (400, "Group has reached maximum member limit", some g)) ∧
      (activeMemberCount g + 1 = g.settings.maxMembers →
        joinGroupRoute userId now (some g) =
          (200, "Successfully joined group",
            some (addMember userId now .member g)) ∧
        activeMemberCount (addMember userId now .member g) =
          g.settings.maxMembers ∧
        ∃ x ∈ (addMember userId now .member g).members,
          x.userId = userId ∧ x.isActive = true)) ∧
    (g.privacy = .Private →
      joinGroupRoute userId now (some g) =
        (403, "Cannot join private group without invitation", some g)) := by
  have hfindA : g.members.find?
      (fun m => m.userId == userId && m.isActive) = none := by
    rw [List.find?_eq_none]
    intro x hx
    simp only [Bool.and_eq_true, beq_iff_eq, not_and]
    intro h1
    rw [hnotmem x hx h1]
    simp
  refine ⟨?_, ?_⟩
  · intro hp
    have hpb : (g.privacy == GroupPrivacy.Private) = false := by
      simpa using hp
    constructor
    · intro hcount
      have hle : g.settings.maxMembers ≤ activeMemberCount g := hcount.ge
      simp [joinGroupRoute, hactive, hpb, hfindA, hle]
    · intro hcount
      have hnle : ¬ g.settings.maxMembers ≤ activeMemberCount g := by omega
      refine ⟨?_, ?_, addMember_active_entry now hnotmem⟩
      · simp [joinGroupRoute, hactive, hpb, hfindA, hnle]
      · rw [addMember_count now hnotmem]
        omega
  · intro hp
    have hpb : (g.privacy == GroupPrivacy.Private) = true := by
      simp [hp]
    simp [joinGroupRoute, hactive, hpb]

/-- Witness for `joinGroup_capacity`: a public group with `maxMembers = 2`
and one active member; user 2 joins, the join succeeds and the active
count reaches capacity 2. -/
theorem joinGroup_capacity_witness :
    activeMemberCount (addMember 2 5 MemberRole.member
      ⟨.Public, [⟨1, .member, 0, true⟩], [], ⟨true, false, true, 2⟩,
        true⟩) = 2 :=
  (((joinGroup_capacity 2 5
      ⟨.Public, [⟨1, .member, 0, true⟩], [], ⟨true, false, true, 2⟩, true⟩
      rfl (by decide)).1 (by decide)).2 (by decide)).2.1

theorem updateParticipantProgress_completed_mono (goalTarget progress : Int)
    (now : Int) (p : Participant) (h : p.isCompleted = true) :
    (updateParticipantProgress goalTarget progress now p).isCompleted =
      true := by
  unfold updateParticipantProgress
  split
  · rfl
  · exact h

/-- The completion flag of the `j`-th participant of the `i`-th challenge of
a group, when both exist. -/
def participantCompleted (g : GroupDoc) (i j : Nat) : Option Bool :=
  (g.challenges.get? i).bind
    (fun c => (c.participants.get? j).map (fun pt => pt.isCompleted))

/-- C9: once a challenge participant's `isCompleted` is true, no progress
update — whatever challenge, user and progress value it names, including a
progress value below the goal target — ever resets it to false. -/
theorem challenge_completion_monotone (challengeId userId : Nat)
    (progress now : Int) (g : GroupDoc) (i j : Nat)
    (h : participantCompleted g i j = some true) :
    participantCompleted
      (updateChallengeProgress challengeId userId progress now g) i j =
      some true := by
  unfold participantCompleted at h ⊢
  unfold updateChallengeProgress
  dsimp only []
  rcases updateFirst_get? (fun c => c.id == challengeId)
      (fun c =>
        let ps := updateFirst (fun pt => pt.userId == userId)
          (updateParticipantProgress c.goalTarget progress now) c.participants
        { c with participants := ps })
      g.challenges i with h1 | h1
  · rw [h1]
    exact h
  · rw [h1]
    cases hc : g.challenges.get? i with
    | none => rw [hc] at h; simp at h
    | some c =>
      rw [hc] at h
      simp only [Option.some_bind] at h
      simp only [Option.map_some', Option.some_bind]
      rcases updateFirst_get? (fun pt => pt.userId == userId)
          (updateParticipantProgress c.goalTarget progress now)
          c.participants j with h2 | h2
      · rw [h2]
        exact h
      · rw [h2]
        cases hp : c.participants.get? j with
        | none => rw [hp] at h; simp at h
        | some pt =>
          rw [hp] at h
          simp only [Option.map_some', Option.some_inj] at h
          simp only [Option.map_some', Option.some_inj]
          exact updateParticipantProgress_completed_mono _ _ _ _ h

/-- Witness for `challenge_completion_monotone`: a participant who already
completed a goal-target-10 challenge keeps `isCompleted = true` after a
progress update that drops their progress to 2. -/
theorem challenge_completion_monotone_witness :
    participantCompleted
      (updateChallengeProgress 5 3 2 0
        ⟨.Public, [], [⟨5, 10, [⟨3, 10, 0, true⟩], true⟩],
          ⟨true, false, true, 100⟩, true⟩) 0 0 = some true :=
  challenge_completion_monotone 5 3 2 0
    ⟨.Public, [], [⟨5, 10, [⟨3, 10, 0, true⟩], true⟩],
      ⟨true, false, true, 100⟩, true⟩ 0 0 rfl

theorem updateChallengeProgress_noop (challengeId userId : Nat)
    (progress now : Int) (g : GroupDoc)
    (h : ∀ c ∈ g.challenges, c.id = challengeId →
      ∀ pt ∈ c.participants, pt.userId ≠ userId) :
    updateChallengeProgress challengeId userId progress now g = g := by
  unfold updateChallengeProgress
  have houter : updateFirst (fun c => c.id == challengeId)
      (fun c =>
        let ps := updateFirst (fun pt => pt.userId == userId)
          (updateParticipantProgress c.goalTarget progress now) c.participants
        { c with participants := ps })
      g.challenges = g.challenges := by
    apply updateFirst_eq_self
    intro c hc hp
    have hcid : c.id = challengeId := by simpa using hp
    have hinner : updateFirst (fun pt => pt.userId == userId)
        (updateParticipantProgress c.goalTarget progress now)
        c.participants = c.participants := by
      apply updateFirst_eq_self
      intro pt hpt hq
      have hq' : pt.userId = userId := by simpa using hq
      exact absurd hq' (h c hc hcid pt hpt)
    dsimp only []
    rw [hinner]
  rw [houter]

/-- C10: when the progress endpoint is called on an active group with a
numeric progress value but the named challenge id is absent from the
group's challenges — or the calling user is not a participant of it — the
group is returned entirely unchanged while the endpoint still answers 200
"Progress updated successfully" rather than an error. -/
theorem challengeProgress_missing_noop (g : GroupDoc)
    (challengeId userId : Nat) (progress now : Int)
    (hactive : g.isActive = true)
    (h : ∀ c ∈ g.challenges, c.id = challengeId →
      ∀ pt ∈ c.participants, pt.userId ≠ userId) :
    challengeProgressRoute (some g) challengeId userId (some progress) now =
      (200, "Progress updated successfully", some g) := by
  unfold challengeProgressRoute
  dsimp only []
  rw [hactive, updateChallengeProgress_noop challengeId userId progress now g h]
  rfl

/-- Witness for `challengeProgress_missing_noop`: a group whose only
challenge has id 5; an update naming challenge 9 answers 200 and leaves the
group untouched. -/
theorem challengeProgress_missing_noop_witness :
    challengeProgressRoute
      (some ⟨.Public, [], [⟨5, 10, [⟨3, 0, 0, false⟩], true⟩],
        ⟨true, false, true, 100⟩, true⟩) 9 3 (some 4) 0 =
      (200, "Progress updated successfully",
        some ⟨.Public, [], [⟨5, 10, [⟨3, 0, 0, false⟩], true⟩],
          ⟨true, false, true, 100⟩, true⟩) :=
  challengeProgress_missing_noop
    ⟨.Public, [], [⟨5, 10, [⟨3, 0, 0, false⟩], true⟩],
      ⟨true, false, true, 100⟩, true⟩ 9 3 4 0 rfl (by decide)

/-- The `likeCount` virtual of the `Activity` schema. -/
def likeCount (a : Activity) : Nat :=
  a.socialData.likes.length

/-- The `commentCount` virtual of the `Activity` schema. -/
def commentCount (a : Activity) : Nat :=
  a.socialData.comments.length

/-- The `engagementScore` computed by `getTrendingActivities`:
`$add [$size likes, $multiply [$size comments, 2]]`. -/
def engagementScore (a : Activity) : Nat :=
  a.socialData.likes.length + a.socialData.comments.length * 2

/-- The ordering `$sort { engagementScore: -1, createdAt: -1 }` of
`getTrendingActivities`: `a` precedes (or ties) `b` when its score is
strictly higher, or the scores tie and `a` is at least as recent. -/
def trendingRel (a b : Activity) : Prop :=
  engagementScore b < engagementScore a ∨
    (engagementScore a = engagementScore b ∧ b.createdAt ≤ a.createdAt)

instance : DecidableRel trendingRel := fun a b => by
  unfold trendingRel
  infer_instance

instance : IsTotal Activity trendingRel := by
  constructor
  intro a b
  unfold trendingRel
  omega

instance : IsTrans Activity trendingRel := by
  constructor
  intro a b c hab hbc
  unfold trendingRel at hab hbc ⊢
  omega

/-- `activitySchema.statics.getTrendingActivities`: match the shared,
active activities, attach the engagement score, sort by score descending
with `createdAt` descending as tie-break, and return the first `limit`
results.  The `$lookup`/`$project` stages reshape the output and are not
part of the verified state. -/
def getTrendingActivities (limit : Nat) (activities : List Activity) :
    List Activity :=
  (List.insertionSort trendingRel
    (activities.filter (fun a => a.socialData.isShared && a.isActive))).take
    limit

/-- C7: the trending listing scores each activity as
`likeCount + 2 × commentCount`, is a reordering (permutation) of the
shared-and-active activities before the limit is applied, is sorted so
every earlier entry either has a strictly higher score or ties with a more
recent (or equal) `createdAt`, and in particular every listed activity with
score at least 6 is ranked strictly above every listed activity with
score 5. -/
theorem getTrendingActivities_spec (limit : Nat)
    (activities : List Activity) :
    (∀ a, engagementScore a = likeCount a + 2 * commentCount a) ∧
    List.Perm
      (List.insertionSort trendingRel
        (activities.filter (fun a => a.socialData.isShared && a.isActive)))
      (activities.filter (fun a => a.socialData.isShared && a.isActive)) ∧
    (getTrendingActivities limit activities).Pairwise trendingRel ∧
    (∀ (i j : Fin (getTrendingActivities limit activities).length),
      6 ≤ engagementScore ((getTrendingActivities limit activities).get i) →
      engagementScore ((getTrendingActivities limit activities).get j) = 5 →
      (i : Nat) < (j : Nat)) := by
  have hsorted : (getTrendingActivities limit activities).Pairwise
      trendingRel := by
    have hs := List.sorted_insertionSort trendingRel
      (activities.filter (fun a => a.socialData.isShared && a.isActive))
    exact List.Pairwise.sublist (List.take_sublist _ _) hs
  refine ⟨?_, List.perm_insertionSort trendingRel _, hsorted, ?_⟩
  · intro a
    unfold engagementScore likeCount commentCount
    omega
  · intro i j h6 h5
    rcases Nat.lt_trichotomy (i : Nat) (j : Nat) with hlt | heq | hgt
    · exact hlt
    · have hij : i = j := Fin.ext heq
      rw [hij] at h6
      omega
    · have hR := List.pairwise_iff_get.mp hsorted j i hgt
      unfold trendingRel at hR
      omega

/-- A shared active activity with six likes (engagement score 6). -/
def sampleHighScore : Activity :=
  ⟨1, ⟨false, none, none, none, none, none, none⟩,
    ⟨true, [⟨1, 0⟩, ⟨2, 0⟩, ⟨3, 0⟩, ⟨4, 0⟩, ⟨5, 0⟩, ⟨6, 0⟩], []⟩, true, 50⟩

/-- A shared active activity with five likes (engagement score 5), more
recent than `sampleHighScore`. -/
def sampleLowScore : Activity :=
  ⟨2, ⟨false, none, none, none, none, none, none⟩,
    ⟨true, [⟨1, 0⟩, ⟨2, 0⟩, ⟨3, 0⟩, ⟨4, 0⟩, ⟨5, 0⟩], []⟩, true, 99⟩

/-- Witness for `getTrendingActivities_spec`: with the score-5 activity
listed first in the input, the score-6 activity still ranks strictly above
it in the trending output. -/
theorem getTrendingActivities_spec_witness :
    6 ≤ engagementScore ((getTrendingActivities 10
      [sampleLowScore, sampleHighScore]).get ⟨0, by decide⟩) ∧
    engagementScore ((getTrendingActivities 10
      [sampleLowScore, sampleHighScore]).get ⟨1, by decide⟩) = 5 ∧
    (0 : Nat) < 1 :=
  ⟨by decide, by decide,
    (getTrendingActivities_spec 10 [sampleLowScore, sampleHighScore]).2.2.2
      ⟨0, by decide⟩ ⟨1, by decide⟩ (by decide) (by decide)⟩
